import Mathlib

/-!
A shallow embedding of the room-based file-sharing server (`server.py`):
the data model (rooms, file entries, per-connection session state), the
registry operations and command handlers, the length-prefixed framing
layer, and the upload byte-receiving loop.  The network is modelled as an
explicit byte stream (`List Nat`, one entry per byte) together with a
delivery schedule (`List Nat`) saying how many bytes the kernel has
buffered at each `recv` call; a blocking `recv` returns at least one byte
whenever the stream is nonempty, and the empty list models a closed peer.
The filesystem is modelled as the sets of directory paths and file paths
that exist; file contents are not tracked (no claim depends on them).
Python dicts become association lists (`lookupKey`/`setKey`/`eraseKey`
mirror indexing, key assignment and `del`); Python sets become `Finset`.
External sources of nondeterminism (generated uuids, timestamps) are
explicit parameters.
-/

/-- Association-list lookup, mirroring Python dict indexing / `in`. -/
def lookupKey {α β : Type} [DecidableEq α] : List (α × β) → α → Option β
  | [], _ => none
  | (k0, v0) :: rest, k => if k0 = k then some v0 else lookupKey rest k

/-- Association-list key assignment, mirroring `d[k] = v` (replace in
place when the key exists, append otherwise, as dict insertion order). -/
def setKey {α β : Type} [DecidableEq α] : List (α × β) → α → β → List (α × β)
  | [], k, v => [(k, v)]
  | (k0, v0) :: rest, k, v =>
    if k0 = k then (k, v) :: rest else (k0, v0) :: setKey rest k v

/-- Association-list key removal, mirroring `del d[k]`. -/
def eraseKey {α β : Type} [DecidableEq α] : List (α × β) → α → List (α × β)
  | [], _ => []
  | (k0, v0) :: rest, k =>
    if k0 = k then eraseKey rest k else (k0, v0) :: eraseKey rest k

/-- The characters removed by Python `str.strip()` (ASCII whitespace). -/
def pyIsSpace (c : Char) : Bool :=
  c = ' ' || c = '\t' || c = '\n' || c = '\r' || c = '\x0b' || c = '\x0c'

/-- Python `str.strip()`: drop leading and trailing whitespace. -/
def pyStrip (s : String) : String :=
  ⟨((s.data.dropWhile pyIsSpace).reverse.dropWhile pyIsSpace).reverse⟩

/-- Index of the last occurrence of `c` (Python `str.rfind`, as Option). -/
def lastIndexOfAux (c : Char) : List Char → Nat → Option Nat
  | [], _ => none
  | x :: xs, i =>
    match lastIndexOfAux c xs (i + 1) with
    | some j => some j
    | none => if x = c then some i else none

/-- The extension component of Python `os.path.splitext(p)[1]`
(posixpath: the suffix from the last dot, unless every character of the
basename before that dot is itself a dot). -/
def pySplitextExt (p : String) : String :=
  let l := p.data
  let sepIdx : Int :=
    match lastIndexOfAux '/' l 0 with
    | some i => (i : Int)
    | none => -1
  let dotIdx : Int :=
    match lastIndexOfAux '.' l 0 with
    | some i => (i : Int)
    | none => -1
  if sepIdx < dotIdx then
    let nameStart := (sepIdx + 1).toNat
    let d := dotIdx.toNat
    if ((l.drop nameStart).take (d - nameStart)).all (fun ch => ch == '.') then ""
    else ⟨l.drop d⟩
  else ""

/-- Big-endian unsigned decoding of a byte list (`struct.unpack('!I')`
on the 4-byte length header). -/
def beDecode : List Nat → Nat
  | [] => 0
  | b :: rest => b * 256 ^ rest.length + beDecode rest

/-- `mimetypes.guess_type` (Python standard library, outside this
repository): a best-effort guess from the filename.  No claim depends on
the guessed value, only on the fallback in `handle_upload`, so the guess
is modelled as always unknown. -/
def mimeGuess (_filename : String) : Option String := none

/-- One blocking `socket.recv(n)` against a byte stream, where `avail`
is how many bytes the kernel has buffered for this call: returns at most
`n` bytes, at least one whenever the stream is nonempty, and the empty
list exactly when the peer has closed (empty stream). -/
def recv (n : Nat) (stream : List Nat) (avail : Nat) : List Nat × List Nat :=
  let k := min n (min (max avail 1) stream.length)
  (stream.take k, stream.drop k)

/-- The filesystem: which directory paths and file paths exist. -/
structure FS where
  dirs : List String
  files : List String
deriving DecidableEq, Repr

/-- `os.makedirs(d, exist_ok=True)` (parents not separately tracked). -/
def FS.makeDir (fs : FS) (d : String) : FS :=
  { fs with dirs := if d ∈ fs.dirs then fs.dirs else fs.dirs ++ [d] }

/-- `open(p, 'wb')`: the file exists afterwards (contents untracked). -/
def FS.addFile (fs : FS) (p : String) : FS :=
  { fs with files := if p ∈ fs.files then fs.files else fs.files ++ [p] }

/-- `os.remove(p)` guarded by `os.path.exists` (a no-op when absent). -/
def FS.removeFile (fs : FS) (p : String) : FS :=
  { fs with files := fs.files.filter (fun q => q != p) }

/-- `shutil.rmtree(d)`: the directory and everything under it go away. -/
def FS.rmtree (fs : FS) (d : String) : FS :=
  { dirs := fs.dirs.filter (fun x => !(x == d || (d ++ "/").isPrefixOf x)),
    files := fs.files.filter (fun p => !((d ++ "/").isPrefixOf p)) }

/-- One uploaded file's metadata (`file_info` dict in `server.py`). -/
structure FileEntry where
  id : String
  name : String
  filename : String
  size : Int
  type : String
  uploader : String
  description : String
  date : String
deriving DecidableEq, Repr

/-- A room: `Room.__init__` fields of `server.py` (the `members` Python
set becomes a `Finset`, the `files` dict an association list). -/
structure Room where
  id : String
  name : String
  owner : String
  members : Finset String
  files : List (String × FileEntry)
  created_at : String
  room_dir : String
deriving DecidableEq

/-- `Room.add_member`: `self.members.add(username)`. -/
def Room.add_member (room : Room) (username : String) : Room :=
  { room with members := insert username room.members }

/-- `Room.remove_member`: `self.members.discard(username)`. -/
def Room.remove_member (room : Room) (username : String) : Room :=
  { room with members := room.members.erase username }

/-- `Room.add_file`: `self.files[file_info['id']] = file_info`. -/
def Room.add_file (room : Room) (fi : FileEntry) : Room :=
  { room with files := setKey room.files fi.id fi }

/-- `Room.remove_file`: delete the physical file (if present) and the
catalog entry; returns the updated room, filesystem and success flag. -/
def Room.remove_file (room : Room) (fs : FS) (file_id : String) :
    Room × FS × Bool :=
  match lookupKey room.files file_id with
  | none => (room, fs, false)
  | some fi =>
    let file_path := room.room_dir ++ "/" ++ fi.filename
    ({ room with files := eraseKey room.files file_id },
     fs.removeFile file_path, true)

/-- One row of the `list` response (`Room.get_file_list`). -/
structure FileSummary where
  id : String
  name : String
  size : Int
  type : String
  uploader : String
  date : String
deriving DecidableEq, Repr

/-- `Room.get_file_list`. -/
def Room.get_file_list (room : Room) : List FileSummary :=
  room.files.map (fun p =>
    { id := p.1, name := p.2.name, size := p.2.size, type := p.2.type,
      uploader := p.2.uploader, date := p.2.date })

/-- `Room.cleanup`: remove the room directory recursively. -/
def Room.cleanup (room : Room) (fs : FS) : FS :=
  fs.rmtree room.room_dir

/-- One row of the `list_rooms` response. -/
structure RoomSummary where
  id : String
  name : String
  owner : String
  member_count : Nat
  created_at : String
deriving DecidableEq, Repr

/-- An incoming command record (`request.get(field, default)` becomes
`Option.getD`); absent keys are `none`. -/
structure Request where
  command : Option String := none
  username : Option String := none
  room_name : Option String := none
  room_id : Option String := none
  filename : Option String := none
  file_size : Option Int := none
  uploader : Option String := none
  description : Option String := none
  file_id : Option String := none
deriving DecidableEq, Repr

/-- An outgoing structured response; fields the code does not set in a
given response are `none`. -/
structure Response where
  status : String
  message : Option String := none
  room_id : Option String := none
  room_name : Option String := none
  rooms : Option (List RoomSummary) := none
  files : Option (List FileSummary) := none
  file_id : Option String := none
  filename : Option String := none
  file_size : Option Int := none
deriving DecidableEq, Repr

/-- `{'status': 'error', 'message': msg}`. -/
def errResp (msg : String) : Response :=
  { status := "error", message := some msg }

/-- The server's shared state: `self.clients` (only the `username` field
of each client-info dict is behaviourally relevant; address and
connect-time are logging-only), `self.rooms`, `self.client_rooms`, and
the filesystem.  Sockets are identified by `Nat`. -/
structure ServerState where
  clients : List (Nat × String)
  rooms : List (String × Room)
  client_rooms : List (Nat × String)
  fs : FS
deriving DecidableEq

namespace FileServer

/-- `FileServer.handle_create_room`.  `freshId` is the generated
`str(uuid.uuid4())[:8]` and `now` the creation timestamp. -/
def handle_create_room (st : ServerState) (sock : Nat) (req : Request)
    (freshId : String) (now : String) : ServerState × Response :=
  let room_name := pyStrip (req.room_name.getD "")
  let username := req.username.getD "Anonymous"
  if room_name = "" then
    (st, errResp "Room name is required")
  else if room_name.length > 50 then
    (st, errResp "Room name too long (max 50 characters)")
  else
    let room_id := freshId
    let room_dir := "rooms/" ++ room_id
    let room : Room :=
      { id := room_id, name := room_name, owner := username,
        members := ∅, files := [], created_at := now, room_dir := room_dir }
    let room := room.add_member username
    ({ st with rooms := setKey st.rooms room_id room,
               client_rooms := setKey st.client_rooms sock room_id,
               fs := st.fs.makeDir room_dir },
     { status := "success",
       message := some ("Room \"" ++ room_name ++ "\" created successfully"),
       room_id := some room_id, room_name := some room_name })

/-- `FileServer.handle_join_room`.  Note the code removes the caller's
username from the old room first and only then re-reads the target room
from the registry (so re-joining one's current room behaves correctly). -/
def handle_join_room (st : ServerState) (sock : Nat) (req : Request) :
    ServerState × Response :=
  let room_id := pyStrip (req.room_id.getD "")
  let username := req.username.getD "Anonymous"
  if room_id = "" then (st, errResp "Room ID is required")
  else if (lookupKey st.rooms room_id).isNone then (st, errResp "Room not found")
  else
    let st1 :=
      match lookupKey st.client_rooms sock with
      | some old_room_id =>
        match lookupKey st.rooms old_room_id with
        | some oldRoom =>
          { st with rooms := setKey st.rooms old_room_id
                              (oldRoom.remove_member username) }
        | none => st
      | none => st
    match lookupKey st1.rooms room_id with
    | some room =>
      let joined := room.add_member username
      ({ st1 with rooms := setKey st1.rooms room_id joined,
                  client_rooms := setKey st1.client_rooms sock room_id },
       { status := "success",
         message := some ("Joined room \"" ++ room.name ++ "\" successfully"),
         room_id := some room_id, room_name := some room.name })
    | none => (st1, errResp "Room not found")

/-- `FileServer.handle_leave_room`.  The handler first reads
`self.clients[client_socket]['username']`; a missing client-info entry
would raise and be converted to the generic failure response. -/
def handle_leave_room (st : ServerState) (sock : Nat) (_req : Request) :
    ServerState × Response :=
  match lookupKey st.clients sock with
  | none => (st, errResp "Failed to leave room")
  | some username =>
    match lookupKey st.client_rooms sock with
    | none => (st, { status := "success", message := some "Not in any room" })
    | some room_id =>
      let st1 :=
        match lookupKey st.rooms room_id with
        | some room =>
          { st with rooms := setKey st.rooms room_id
                              (room.remove_member username) }
        | none => st
      ({ st1 with client_rooms := eraseKey st1.client_rooms sock },
       { status := "success", message := some "Left room successfully" })

/-- Drop every `client_rooms` binding to `rid` (the
`clients_to_remove` loop of `handle_delete_room`). -/
def removeRoomBindings (l : List (Nat × String)) (rid : String) :
    List (Nat × String) :=
  l.filter (fun p => p.2 != rid)

/-- `FileServer.handle_delete_room`. -/
def handle_delete_room (st : ServerState) (sock : Nat) (req : Request) :
    ServerState × Response :=
  let room_id := pyStrip (req.room_id.getD "")
  match lookupKey st.clients sock with
  | none => (st, errResp "Failed to delete room")
  | some username =>
    if room_id = "" then (st, errResp "Room not found")
    else
      match lookupKey st.rooms room_id with
      | none => (st, errResp "Room not found")
      | some room =>
        if room.owner ≠ username then
          (st, errResp "Only the room owner can delete the room")
        else
          ({ st with client_rooms := removeRoomBindings st.client_rooms room_id,
                     fs := room.cleanup st.fs,
                     rooms := eraseKey st.rooms room_id },
           { status := "success",
             message := some ("Room \"" ++ room.name ++ "\" deleted successfully") })

/-- `FileServer.handle_list_rooms`. -/
def handle_list_rooms (st : ServerState) (_sock : Nat) :
    ServerState × Response :=
  (st,
   { status := "success",
     rooms := some (st.rooms.map (fun p =>
       { id := p.1, name := p.2.name, owner := p.2.owner,
         member_count := p.2.members.card, created_at := p.2.created_at })) })

/-- `FileServer.handle_list_files`. -/
def handle_list_files (st : ServerState) (sock : Nat) (_req : Request) :
    ServerState × Response :=
  match lookupKey st.client_rooms sock with
  | none => (st, { status := "success", files := some [] })
  | some room_id =>
    match lookupKey st.rooms room_id with
    | none => (st, { status := "success", files := some [] })
    | some room => (st, { status := "success", files := some room.get_file_list })

/-- The payload loop of `FileServer.receive_request`:
`while len(data) < length: chunk = recv(min(8192, length - len(data)));
if not chunk: return None; data += chunk; return data`. -/
def recvPayload (stream sched : List Nat) (length : Nat) (data : List Nat) :
    Option (List Nat) :=
  if data.length < length then
    let n := min 8192 (length - data.length)
    let a := sched.headD stream.length
    if h : (recv n stream a).1 = [] then none
    else recvPayload (recv n stream a).2 sched.tail length (data ++ (recv n stream a).1)
  else some data
termination_by stream.length
decreasing_by
  simp only [recv, List.take_eq_nil_iff, not_or, List.length_drop] at h ⊢
  rcases h with ⟨hk, hs⟩
  have : stream.length ≠ 0 := fun h0 => hs (List.eq_nil_of_length_eq_zero h0)
  omega

/-- `FileServer.receive_request`: read the 4-byte big-endian length
header with a single `recv(4)`, reject declared lengths over 10 MiB,
then loop partial reads for the payload.  Returns the raw payload bytes
(the subsequent `json.loads` is a separate concern); `none` models every
`return None` path — connection closed, oversized frame, or the
`struct.unpack` error raised when the single header `recv` yields fewer
than 4 bytes — all of which make the caller drop the connection. -/
def receive_request (stream sched : List Nat) : Option (List Nat) :=
  let out := recv 4 stream (sched.headD stream.length)
  if out.1 = [] then none
  else if out.1.length ≠ 4 then none
  else
    let length := beDecode out.1
    if length > 10 * 1024 * 1024 then none
    else recvPayload out.2 sched.tail length []

/-- The framing read as §4.1 of the spec words it ("reads exactly 4
bytes", then "reads exactly that many bytes by looping partial reads"):
its outcome depends only on the bytes the peer sends, never on how the
transport chunks them into `recv` results. -/
def receive_request_asSpecified (stream : List Nat) : Option (List Nat) :=
  if stream.length < 4 then none
  else
    let length := beDecode (stream.take 4)
    if length > 10 * 1024 * 1024 then none
    else if (stream.drop 4).length < length then none
    else some ((stream.drop 4).take length)

/-- The byte-receiving loop of `FileServer.handle_upload`:
`while received < file_size: chunk = recv(min(8192, file_size -
received)); if not chunk: break; received += len(chunk)`.  Returns the
final byte count (file contents are not tracked). -/
def recvFileLoop (stream sched : List Nat) (file_size received : Int) : Int :=
  if received < file_size then
    let chunk_size := (min 8192 (file_size - received)).toNat
    let a := sched.headD stream.length
    if h : (recv chunk_size stream a).1 = [] then received
    else recvFileLoop (recv chunk_size stream a).2 sched.tail file_size
        (received + ((recv chunk_size stream a).1.length : Int))
  else received
termination_by stream.length
decreasing_by
  simp only [recv, List.take_eq_nil_iff, not_or, List.length_drop] at h ⊢
  rcases h with ⟨hk, hs⟩
  have : stream.length ≠ 0 := fun h0 => hs (List.eq_nil_of_length_eq_zero h0)
  omega

/-- `FileServer.handle_upload`.  `fileId` is the generated
`str(uuid.uuid4())[:12]`, `now` the timestamp, and `stream`/`sched`
the raw bytes the peer sends after the "ready" response together with
their delivery schedule.  Returns the new state and the list of
responses sent on the socket. -/
def handle_upload (st : ServerState) (sock : Nat) (req : Request)
    (fileId : String) (now : String) (stream sched : List Nat) :
    ServerState × List Response :=
  match lookupKey st.client_rooms sock with
  | none => (st, [errResp "Must join a room before uploading files"])
  | some room_id =>
    match lookupKey st.rooms room_id with
    | none => (st, [errResp "Room not found"])
    | some room =>
      let filename := req.filename.getD ""
      let file_size := req.file_size.getD 0
      let uploader := req.uploader.getD "Anonymous"
      let description := req.description.getD ""
      if filename = "" then (st, [errResp "Filename is required"])
      else if file_size > 500 * 1024 * 1024 then
        (st, [errResp "File too large (max 500MB)"])
      else
        let stored_filename := fileId ++ pySplitextExt filename
        let file_path := room.room_dir ++ "/" ++ stored_filename
        let ready : Response :=
          { status := "ready", message := some "Ready to receive file" }
        let fs1 := st.fs.addFile file_path
        let received := recvFileLoop stream sched file_size 0
        if received ≠ file_size then
          ({ st with fs := fs1.removeFile file_path },
           [ready, errResp "Incomplete file transfer"])
        else
          let file_type := (mimeGuess filename).getD "application/octet-stream"
          let file_info : FileEntry :=
            { id := fileId, name := filename, filename := stored_filename,
              size := file_size, type := file_type, uploader := uploader,
              description := description, date := now }
          ({ st with rooms := setKey st.rooms room_id (room.add_file file_info),
                     fs := fs1 },
           [ready, { status := "success",
                     message := some "File uploaded successfully",
                     file_id := some fileId }])

/-- `FileServer.handle_download` (its metadata and error responses; the
raw-byte streaming after the success response mutates no server state
and its content is untracked). -/
def handle_download (st : ServerState) (sock : Nat) (req : Request) :
    ServerState × List Response :=
  match lookupKey st.client_rooms sock with
  | none => (st, [errResp "Must join a room before downloading files"])
  | some room_id =>
    match lookupKey st.rooms room_id with
    | none => (st, [errResp "Room not found"])
    | some room =>
      let file_id := req.file_id.getD ""
      match lookupKey room.files file_id with
      | none => (st, [errResp "File not found"])
      | some fi =>
        let file_path := room.room_dir ++ "/" ++ fi.filename
        if file_path ∉ st.fs.files then (st, [errResp "File not found on disk"])
        else
          (st, [{ status := "success", filename := some fi.name,
                  file_size := some fi.size }])

/-- `FileServer.handle_delete_file`. -/
def handle_delete_file (st : ServerState) (sock : Nat) (req : Request) :
    ServerState × Response :=
  match lookupKey st.client_rooms sock with
  | none => (st, errResp "Must join a room before deleting files")
  | some room_id =>
    match lookupKey st.rooms room_id with
    | none => (st, errResp "Room not found")
    | some room =>
      let file_id := req.file_id.getD ""
      if (lookupKey room.files file_id).isNone then (st, errResp "File not found")
      else
        let out := room.remove_file st.fs file_id
        if out.2.2 then
          ({ st with rooms := setKey st.rooms room_id out.1, fs := out.2.1 },
           { status := "success", message := some "File deleted successfully" })
        else (st, errResp "Failed to delete file")

/-- `FileServer.disconnect_client`.  The code reads
`self.clients[client_socket]['username']` only after finding a live
room binding; if that raises, the `except` skips the whole cleanup. -/
def disconnect_client (st : ServerState) (sock : Nat) : ServerState :=
  match lookupKey st.client_rooms sock with
  | some room_id =>
    match lookupKey st.rooms room_id with
    | some room =>
      match lookupKey st.clients sock with
      | some username =>
        { st with rooms := setKey st.rooms room_id (room.remove_member username),
                  client_rooms := eraseKey st.client_rooms sock,
                  clients := eraseKey st.clients sock }
      | none => st
    | none =>
      { st with client_rooms := eraseKey st.client_rooms sock,
                clients := eraseKey st.clients sock }
  | none => { st with clients := eraseKey st.clients sock }

/-- External inputs one dispatch step may consume: the generated uuid,
the timestamp, and the raw upload byte stream with its schedule. -/
structure Ext where
  freshId : String := ""
  now : String := ""
  stream : List Nat := []
  sched : List Nat := []

/-- One iteration of `FileServer.handle_client`'s loop, after the frame
read: a failed read (`none`) breaks the loop and tears the session
down; otherwise the stored username is refreshed from the request when
present and the command dispatched.  Returns the new state, the
responses sent, and whether the loop continues. -/
def handle_client_step (st : ServerState) (sock : Nat)
    (reqOpt : Option Request) (ext : Ext) :
    ServerState × List Response × Bool :=
  match reqOpt with
  | none => (disconnect_client st sock, [], false)
  | some req =>
    let st :=
      match req.username with
      | some u => { st with clients := setKey st.clients sock u }
      | none => st
    let command := req.command
    if command = some "create_room" then
      let out := handle_create_room st sock req ext.freshId ext.now
      (out.1, [out.2], true)
    else if command = some "join_room" then
      let out := handle_join_room st sock req
      (out.1, [out.2], true)
    else if command = some "leave_room" then
      let out := handle_leave_room st sock req
      (out.1, [out.2], true)
    else if command = some "delete_room" then
      let out := handle_delete_room st sock req
      (out.1, [out.2], true)
    else if command = some "list_rooms" then
      let out := handle_list_rooms st sock
      (out.1, [out.2], true)
    else if command = some "upload" then
      let out := handle_upload st sock req ext.freshId ext.now ext.stream ext.sched
      (out.1, out.2, true)
    else if command = some "download" then
      let out := handle_download st sock req
      (out.1, out.2, true)
    else if command = some "delete" then
      let out := handle_delete_file st sock req
      (out.1, [out.2], true)
    else if command = some "list" then
      let out := handle_list_files st sock req
      (out.1, [out.2], true)
    else
      (st, [errResp ("Unknown command: " ++ command.getD "None")], true)

end FileServer

/-! Concrete states used by witnesses and counterexamples. -/

/-- A room owned by alice with alice as its only member. -/
def roomAlpha : Room :=
  { id := "r1", name := "Alpha", owner := "alice", members := {"alice"},
    files := [], created_at := "t0", room_dir := "rooms/r1" }

/-- Alice's session (socket 0) currently bound to `roomAlpha`. -/
def stInRoom : ServerState :=
  ⟨[(0, "alice")], [("r1", roomAlpha)], [(0, "r1")],
   ⟨["rooms", "rooms/r1"], []⟩⟩

/-- Alice's session (socket 0) not bound to any room. -/
def stNoRoom : ServerState :=
  ⟨[(0, "alice")], [], [], ⟨["rooms"], []⟩⟩

/-- The room `handle_create_room` builds for alice under fresh id `r2`. -/
def roomBeta : Room :=
  { id := "r2", name := "Beta", owner := "alice", members := {"alice"},
    files := [], created_at := "t1", room_dir := "rooms/r2" }

/-- A pre-existing room whose id `abc` a later uuid draw can collide with. -/
def roomOldBob : Room :=
  { id := "abc", name := "Old", owner := "bob", members := {"bob"},
    files := [], created_at := "t0", room_dir := "rooms/abc" }

/-- Bob's room is tracked; alice (socket 1) is connected, roomless. -/
def stBob : ServerState :=
  ⟨[(1, "alice")], [("abc", roomOldBob)], [], ⟨["rooms", "rooms/abc"], []⟩⟩

/-- An upload request declaring 5 bytes for file `a.txt`. -/
def uploadReq : Request :=
  { command := some "upload", filename := some "a.txt",
    file_size := some 5, uploader := some "alice" }

/-! ## Helper lemmas -/

theorem lookupKey_setKey_self {α β : Type} [DecidableEq α]
    (l : List (α × β)) (k : α) (v : β) :
    lookupKey (setKey l k v) k = some v := by
  induction l with
  | nil => simp [setKey, lookupKey]
  | cons p rest ih =>
    by_cases h : p.1 = k
    · simp [setKey, lookupKey, h]
    · cases p with
      | mk k0 v0 =>
        simp only at h
        simp [setKey, lookupKey, h, ih]

theorem lookupKey_eq_none_iff {α β : Type} [DecidableEq α]
    (l : List (α × β)) (k : α) :
    lookupKey l k = none ↔ ∀ p ∈ l, p.1 ≠ k := by
  induction l with
  | nil => simp [lookupKey]
  | cons p rest ih =>
    cases p with
    | mk k0 v0 =>
      by_cases h : k0 = k
      · simp [lookupKey, h]
      · simp [lookupKey, h, ih]

theorem fst_ne_of_mem_eraseKey {α β : Type} [DecidableEq α]
    (l : List (α × β)) (k : α) (p : α × β) (hp : p ∈ eraseKey l k) :
    p.1 ≠ k := by
  induction l with
  | nil => simp [eraseKey] at hp
  | cons q rest ih =>
    cases q with
    | mk k0 v0 =>
      by_cases h : k0 = k
      · rw [eraseKey, if_pos h] at hp
        exact ih hp
      · rw [eraseKey, if_neg h] at hp
        rcases List.mem_cons.mp hp with h1 | h1
        · subst h1; exact h
        · exact ih h1

theorem not_mem_removeFile_files (fs : FS) (p : String) :
    p ∉ (fs.removeFile p).files := by
  simp [FS.removeFile, List.mem_filter]

theorem self_not_mem_rmtree_dirs (fs : FS) (d : String) :
    d ∉ (fs.rmtree d).dirs := by
  simp [FS.rmtree, List.mem_filter]

theorem pyStrip_eq_empty (s : String)
    (h : ∀ c ∈ s.data, pyIsSpace c) : pyStrip s = "" := by
  have h1 : s.data.dropWhile pyIsSpace = [] := by
    rw [List.dropWhile_eq_nil_iff]
    exact h
  simp [pyStrip, h1]

/-! ## Claims -/

/-- C10: a `create_room` request whose `room_name` is missing, empty, or
whitespace-only is answered with the error "Room name is required" and
the state — rooms, bindings, filesystem — is left untouched. -/
theorem create_room_blank_name_rejected (st : ServerState) (sock : Nat)
    (req : Request) (freshId now : String)
    (h : ∀ c ∈ (req.room_name.getD "").data, pyIsSpace c) :
    FileServer.handle_create_room st sock req freshId now =
      (st, errResp "Room name is required") := by
  have h1 : pyStrip (req.room_name.getD "") = "" := pyStrip_eq_empty _ h
  simp [FileServer.handle_create_room, h1]

theorem create_room_blank_name_rejected_witness :
    (∀ c ∈ (({ room_name := some "  \t " } : Request).room_name.getD "").data,
      pyIsSpace c) ∧
    FileServer.handle_create_room stNoRoom 0
        ({ room_name := some "  \t " } : Request) "r9" "t9" =
      (stNoRoom, errResp "Room name is required") :=
  ⟨by decide,
   create_room_blank_name_rejected stNoRoom 0 _ "r9" "t9" (by decide)⟩

/-- C8: `leave_room` from a session that is in no room answers with
status "success" and message "Not in any room", and the state is
unchanged. -/
theorem leave_room_when_roomless (st : ServerState) (sock : Nat)
    (req : Request) (u : String)
    (hc : lookupKey st.clients sock = some u)
    (hb : lookupKey st.client_rooms sock = none) :
    FileServer.handle_leave_room st sock req =
      (st, { status := "success", message := some "Not in any room" }) := by
  simp [FileServer.handle_leave_room, hc, hb]

theorem leave_room_when_roomless_witness :
    lookupKey stNoRoom.clients 0 = some "alice" ∧
    lookupKey stNoRoom.client_rooms 0 = none ∧
    FileServer.handle_leave_room stNoRoom 0 ({} : Request) =
      (stNoRoom, { status := "success", message := some "Not in any room" }) :=
  ⟨rfl, rfl, leave_room_when_roomless stNoRoom 0 _ "alice" rfl rfl⟩

/-- C7: the `list` (list-files) command from a session with no current
live room is answered with a success response carrying an empty file
list, never an error. -/
theorem list_files_when_roomless (st : ServerState) (sock : Nat)
    (req : Request)
    (h : (lookupKey st.client_rooms sock).bind (lookupKey st.rooms) = none) :
    FileServer.handle_list_files st sock req =
      (st, { status := "success", files := some [] }) := by
  cases hb : lookupKey st.client_rooms sock with
  | none => simp [FileServer.handle_list_files, hb]
  | some rid =>
    rw [hb] at h
    simp only [Option.some_bind] at h
    simp [FileServer.handle_list_files, hb, h]

theorem list_files_when_roomless_witness :
    (lookupKey stNoRoom.client_rooms 0).bind (lookupKey stNoRoom.rooms) = none ∧
    FileServer.handle_list_files stNoRoom 0 ({} : Request) =
      (stNoRoom, { status := "success", files := some [] }) :=
  ⟨rfl, list_files_when_roomless stNoRoom 0 _ rfl⟩

/-- C9: membership is a set of usernames, so `Room.add_member` is
idempotent per username: re-adding a username already in the member set
leaves the room — and hence the `member_count` column of the
`list_rooms` response — unchanged. -/
theorem add_member_idempotent (st : ServerState) (sock : Nat)
    (room : Room) (rid u : String) (h : u ∈ room.members) :
    (room.add_member u).members = room.members ∧
    (FileServer.handle_list_rooms
        { st with rooms := setKey st.rooms rid (room.add_member u) } sock).2 =
      (FileServer.handle_list_rooms
        { st with rooms := setKey st.rooms rid room } sock).2 := by
  have hroom : room.add_member u = room := by
    cases room with
    | mk id name owner members files created_at room_dir =>
      simp only [Room.add_member]
      simp only [Room.mk.injEq, and_true, true_and]
      exact Finset.insert_eq_self.mpr h
  rw [hroom]
  exact ⟨rfl, rfl⟩

theorem add_member_idempotent_witness :
    "alice" ∈ roomAlpha.members ∧
    ((roomAlpha.add_member "alice").members = roomAlpha.members ∧
      (FileServer.handle_list_rooms
          { stInRoom with
            rooms := setKey stInRoom.rooms "r1" (roomAlpha.add_member "alice") }
          0).2 =
        (FileServer.handle_list_rooms
          { stInRoom with rooms := setKey stInRoom.rooms "r1" roomAlpha }
          0).2) :=
  ⟨by decide, add_member_idempotent stInRoom 0 roomAlpha "r1" "alice" (by decide)⟩

/-- C2: `delete_room` succeeds exactly when the named room is tracked
and its owner is the requesting session's username; on success the
room's storage directory is gone from the filesystem and the `list_rooms`
response computed from the resulting state no longer contains the room's
id.  (The hypothesis that no tracked room has the empty-string id holds
for every reachable registry, since ids are 8-character uuid slices.) -/
theorem delete_room_owner_only (st : ServerState) (sock : Nat)
    (req : Request) (u : String)
    (hc : lookupKey st.clients sock = some u)
    (h0 : lookupKey st.rooms "" = none) :
    ((FileServer.handle_delete_room st sock req).2.status = "success" ↔
      ∃ room, lookupKey st.rooms (pyStrip (req.room_id.getD "")) = some room ∧
        room.owner = u) ∧
    (∀ room, lookupKey st.rooms (pyStrip (req.room_id.getD "")) = some room →
      room.owner = u →
      room.room_dir ∉ (FileServer.handle_delete_room st sock req).1.fs.dirs ∧
      ∀ s ∈ ((FileServer.handle_list_rooms
          (FileServer.handle_delete_room st sock req).1 sock).2.rooms.getD []),
        s.id ≠ pyStrip (req.room_id.getD "")) := by
  by_cases hrid : pyStrip (req.room_id.getD "") = ""
  · have hnone : lookupKey st.rooms (pyStrip (req.room_id.getD "")) = none := by
      rw [hrid]; exact h0
    refine ⟨⟨fun habs => ?_, ?_⟩, ?_⟩
    · have h2 : (FileServer.handle_delete_room st sock req).2 =
          errResp "Room not found" := by
        simp [FileServer.handle_delete_room, hc, hrid]
      rw [h2] at habs
      exact absurd habs (by decide)
    · rintro ⟨room, hroom, -⟩
      rw [hnone] at hroom
      exact absurd hroom (by simp)
    · intro room hroom
      rw [hnone] at hroom
      exact absurd hroom (by simp)
  · cases hr : lookupKey st.rooms (pyStrip (req.room_id.getD "")) with
    | none =>
      refine ⟨⟨fun habs => ?_, ?_⟩, ?_⟩
      · have h2 : (FileServer.handle_delete_room st sock req).2 =
            errResp "Room not found" := by
          simp [FileServer.handle_delete_room, hc, hrid, hr]
        rw [h2] at habs
        exact absurd habs (by decide)
      · rintro ⟨room, hroom, -⟩
        exact absurd hroom (by simp)
      · intro room hroom
        exact absurd hroom (by simp)
    | some room =>
      by_cases how : room.owner = u
      · have hstep : FileServer.handle_delete_room st sock req =
            ({ st with
                client_rooms := FileServer.removeRoomBindings st.client_rooms
                  (pyStrip (req.room_id.getD "")),
                fs := room.cleanup st.fs,
                rooms := eraseKey st.rooms (pyStrip (req.room_id.getD "")) },
             { status := "success",
               message := some ("Room \"" ++ room.name ++
                 "\" deleted successfully") }) := by
          simp [FileServer.handle_delete_room, hc, hrid, hr, how]
        refine ⟨?_, ?_⟩
        · rw [hstep]
          exact ⟨fun _ => ⟨room, rfl, how⟩, fun _ => rfl⟩
        · intro room' hroom' hown'
          have hrr : room = room' := Option.some.inj hroom'
          subst hrr
          rw [hstep]
          refine ⟨self_not_mem_rmtree_dirs _ _, ?_⟩
          intro s hs
          simp only [FileServer.handle_list_rooms, Option.getD_some,
            List.mem_map] at hs
          obtain ⟨p, hp, hps⟩ := hs
          have hne := fst_ne_of_mem_eraseKey _ _ _ hp
          rw [← hps]
          exact hne
      · refine ⟨⟨fun habs => ?_, ?_⟩, ?_⟩
        · have h2 : (FileServer.handle_delete_room st sock req).2 =
              errResp "Only the room owner can delete the room" := by
            simp [FileServer.handle_delete_room, hc, hrid, hr, how]
          rw [h2] at habs
          exact absurd habs (by decide)
        · rintro ⟨room', hroom', hown'⟩
          have := Option.some.inj hroom'
          exact absurd (this ▸ hown') how
        · intro room' hroom' hown'
          have := Option.some.inj hroom'
          exact absurd (this ▸ hown') how

theorem delete_room_owner_only_witness :
    lookupKey stInRoom.clients 0 = some "alice" ∧
    lookupKey stInRoom.rooms "" = none ∧
    (((FileServer.handle_delete_room stInRoom 0
        ({ room_id := some "r1" } : Request)).2.status = "success" ↔
      ∃ room, lookupKey stInRoom.rooms
          (pyStrip (({ room_id := some "r1" } : Request).room_id.getD "")) =
          some room ∧ room.owner = "alice") ∧
    (∀ room, lookupKey stInRoom.rooms
        (pyStrip (({ room_id := some "r1" } : Request).room_id.getD "")) =
        some room →
      room.owner = "alice" →
      room.room_dir ∉
        (FileServer.handle_delete_room stInRoom 0
          ({ room_id := some "r1" } : Request)).1.fs.dirs ∧
      ∀ s ∈ ((FileServer.handle_list_rooms
          (FileServer.handle_delete_room stInRoom 0
            ({ room_id := some "r1" } : Request)).1 0).2.rooms.getD []),
        s.id ≠ pyStrip (({ room_id := some "r1" } : Request).room_id.getD ""))) :=
  ⟨rfl, rfl, delete_room_owner_only stInRoom 0 _ "alice" rfl rfl⟩

/-- C4 counterexample: with a room of id "abc" (owner bob) already
tracked, a valid `create_room` request for which the uuid draw yields
"abc" again succeeds and returns room id "abc" — the id of another room
that was tracked when the request arrived — and silently replaces bob's
room; the code never checks the generated id for freshness. -/
theorem create_room_id_collision :
    (FileServer.handle_create_room stBob 1
        ({ command := some "create_room", room_name := some "New",
           username := some "alice" } : Request) "abc" "t1").2.status =
      "success" ∧
    (FileServer.handle_create_room stBob 1
        ({ command := some "create_room", room_name := some "New",
           username := some "alice" } : Request) "abc" "t1").2.room_id =
      some "abc" ∧
    lookupKey stBob.rooms "abc" = some roomOldBob ∧
    lookupKey (FileServer.handle_create_room stBob 1
        ({ command := some "create_room", room_name := some "New",
           username := some "alice" } : Request) "abc" "t1").1.rooms "abc" ≠
      some roomOldBob := by
  decide

/-- C4 amended: for every valid `create_room` request (stripped name
nonempty, at most 50 characters) whose generated 8-character id does not
already identify a tracked room — collisions are astronomically unlikely
but unchecked, and on one the existing room is silently replaced — the
returned room id differs from the id of every room tracked before the
call, and immediately afterwards the creator's username is in the new
room's member set and recorded as its owner. -/
theorem create_room_fresh_id (st : ServerState) (sock : Nat)
    (req : Request) (freshId now : String)
    (hname : pyStrip (req.room_name.getD "") ≠ "")
    (hlen : (pyStrip (req.room_name.getD "")).length ≤ 50)
    (hfresh : lookupKey st.rooms freshId = none) :
    (FileServer.handle_create_room st sock req freshId now).2.status =
      "success" ∧
    (FileServer.handle_create_room st sock req freshId now).2.room_id =
      some freshId ∧
    (∀ p ∈ st.rooms, p.1 ≠ freshId) ∧
    ∃ r, lookupKey
        (FileServer.handle_create_room st sock req freshId now).1.rooms
        freshId = some r ∧
      r.owner = req.username.getD "Anonymous" ∧
      req.username.getD "Anonymous" ∈ r.members := by
  have hlen2 : ¬((pyStrip (req.room_name.getD "")).length > 50) := by omega
  refine ⟨?_, ?_, (lookupKey_eq_none_iff _ _).mp hfresh, ?_⟩
  · simp [FileServer.handle_create_room, hname, hlen2]
  · simp [FileServer.handle_create_room, hname, hlen2]
  · refine ⟨Room.add_member
      { id := freshId, name := pyStrip (req.room_name.getD ""),
        owner := req.username.getD "Anonymous", members := ∅, files := [],
        created_at := now, room_dir := "rooms/" ++ freshId }
      (req.username.getD "Anonymous"), ?_, rfl, ?_⟩
    · have hrooms :
          (FileServer.handle_create_room st sock req freshId now).1.rooms =
            setKey st.rooms freshId (Room.add_member
              { id := freshId, name := pyStrip (req.room_name.getD ""),
                owner := req.username.getD "Anonymous", members := ∅,
                files := [], created_at := now,
                room_dir := "rooms/" ++ freshId }
              (req.username.getD "Anonymous")) := by
        simp [FileServer.handle_create_room, hname, hlen2]
      rw [hrooms]
      exact lookupKey_setKey_self _ _ _
    · exact Finset.mem_insert_self _ _

theorem create_room_fresh_id_witness :
    pyStrip (({ room_name := some "Gamma", username := some "alice" } :
        Request).room_name.getD "") ≠ "" ∧
    (pyStrip (({ room_name := some "Gamma", username := some "alice" } :
        Request).room_name.getD "")).length ≤ 50 ∧
    lookupKey stNoRoom.rooms "r7" = none ∧
    ((FileServer.handle_create_room stNoRoom 0
        ({ room_name := some "Gamma", username := some "alice" } : Request)
        "r7" "t7").2.status = "success" ∧
    (FileServer.handle_create_room stNoRoom 0
        ({ room_name := some "Gamma", username := some "alice" } : Request)
        "r7" "t7").2.room_id = some "r7" ∧
    (∀ p ∈ stNoRoom.rooms, p.1 ≠ "r7") ∧
    ∃ r, lookupKey (FileServer.handle_create_room stNoRoom 0
        ({ room_name := some "Gamma", username := some "alice" } : Request)
        "r7" "t7").1.rooms "r7" = some r ∧
      r.owner = (({ room_name := some "Gamma", username := some "alice" } :
        Request).username.getD "Anonymous") ∧
      (({ room_name := some "Gamma", username := some "alice" } :
        Request).username.getD "Anonymous") ∈ r.members) :=
  ⟨by decide, by decide, rfl,
   create_room_fresh_id stNoRoom 0 _ "r7" "t7" (by decide) (by decide) rfl⟩

/-- C1 (code bug): a `create_room` issued while the session is bound to
a prior room binds the session to the new room and adds the username to
the new room's member set, but never removes the username from the prior
room's member set — here "alice", bound to room r1, creates room r2 and
is afterwards in both rooms' member sets, violating the at-most-one-room
membership invariant (which `handle_join_room` does maintain). -/
theorem create_room_leaves_stale_membership :
    lookupKey (FileServer.handle_create_room stInRoom 0
        ({ command := some "create_room", room_name := some "Beta",
           username := some "alice" } : Request) "r2" "t1").1.rooms "r1" =
      some roomAlpha ∧
    lookupKey (FileServer.handle_create_room stInRoom 0
        ({ command := some "create_room", room_name := some "Beta",
           username := some "alice" } : Request) "r2" "t1").1.rooms "r2" =
      some roomBeta ∧
    lookupKey (FileServer.handle_create_room stInRoom 0
        ({ command := some "create_room", room_name := some "Beta",
           username := some "alice" } : Request) "r2" "t1").1.client_rooms 0 =
      some "r2" ∧
    "alice" ∈ roomAlpha.members ∧ "alice" ∈ roomBeta.members := by
  decide

/-- C6 counterexample: the `list` (list-files) command issued by an
Anonymous session is answered with a success response carrying an empty
list — not the error response the claim requires for all four
InRoom-only commands. -/
theorem list_while_anonymous_not_error :
    (FileServer.handle_client_step stNoRoom 0
        (some ({ command := some "list" } : Request)) {}).2.1 =
      [{ status := "success", files := some [] }] ∧
    ({ status := "success", files := some [] } : Response).status ≠ "error" :=
  ⟨rfl, by decide⟩

/-- C6 amended: an `upload`, `download` or `delete` (file) command
issued while the session is Anonymous (no room binding) is answered with
exactly one structured error response, the handler loop continues (the
connection stays open), and the state is unchanged except possibly the
session's stored username — in particular rooms, room bindings and the
filesystem are untouched.  The `list` command instead answers success
with an empty list. -/
theorem handle_upload_anonymous (st : ServerState) (sock : Nat)
    (req : Request) (fileId now : String) (stream sched : List Nat)
    (hanon : lookupKey st.client_rooms sock = none) :
    FileServer.handle_upload st sock req fileId now stream sched =
      (st, [errResp "Must join a room before uploading files"]) := by
  unfold FileServer.handle_upload
  rw [hanon]

theorem handle_download_anonymous (st : ServerState) (sock : Nat)
    (req : Request) (hanon : lookupKey st.client_rooms sock = none) :
    FileServer.handle_download st sock req =
      (st, [errResp "Must join a room before downloading files"]) := by
  unfold FileServer.handle_download
  rw [hanon]

theorem handle_delete_file_anonymous (st : ServerState) (sock : Nat)
    (req : Request) (hanon : lookupKey st.client_rooms sock = none) :
    FileServer.handle_delete_file st sock req =
      (st, errResp "Must join a room before deleting files") := by
  unfold FileServer.handle_delete_file
  rw [hanon]

theorem in_room_commands_rejected_when_anonymous (st : ServerState)
    (sock : Nat) (req : Request) (ext : FileServer.Ext) (cmd : String)
    (hc : req.command = some cmd)
    (hcmd : cmd = "upload" ∨ cmd = "download" ∨ cmd = "delete")
    (hanon : lookupKey st.client_rooms sock = none) :
    ∃ msg, FileServer.handle_client_step st sock (some req) ext =
      ({ st with clients :=
          (FileServer.handle_client_step st sock (some req) ext).1.clients },
       [errResp msg], true) := by
  rcases hcmd with h | h | h <;> subst h <;> cases hu : req.username
  · refine ⟨"Must join a room before uploading files", ?_⟩
    have h1 : FileServer.handle_client_step st sock (some req) ext =
        ((FileServer.handle_upload st sock req ext.freshId ext.now
            ext.stream ext.sched).1,
         (FileServer.handle_upload st sock req ext.freshId ext.now
            ext.stream ext.sched).2, true) := by
      simp only [FileServer.handle_client_step, hu, hc, Option.some.injEq,
        String.reduceEq, reduceIte]
    rw [h1, handle_upload_anonymous st sock req _ _ _ _ hanon]
  · refine ⟨"Must join a room before uploading files", ?_⟩
    next u =>
    have h1 : FileServer.handle_client_step st sock (some req) ext =
        ((FileServer.handle_upload { st with
            clients := setKey st.clients sock u } sock req ext.freshId
            ext.now ext.stream ext.sched).1,
         (FileServer.handle_upload { st with
            clients := setKey st.clients sock u } sock req ext.freshId
            ext.now ext.stream ext.sched).2, true) := by
      simp only [FileServer.handle_client_step, hu, hc, Option.some.injEq,
        String.reduceEq, reduceIte]
    rw [h1, handle_upload_anonymous { st with
      clients := setKey st.clients sock u } sock req _ _ _ _ hanon]
  · refine ⟨"Must join a room before downloading files", ?_⟩
    have h1 : FileServer.handle_client_step st sock (some req) ext =
        ((FileServer.handle_download st sock req).1,
         (FileServer.handle_download st sock req).2, true) := by
      simp only [FileServer.handle_client_step, hu, hc, Option.some.injEq,
        String.reduceEq, reduceIte]
    rw [h1, handle_download_anonymous st sock req hanon]
  · refine ⟨"Must join a room before downloading files", ?_⟩
    next u =>
    have h1 : FileServer.handle_client_step st sock (some req) ext =
        ((FileServer.handle_download { st with
            clients := setKey st.clients sock u } sock req).1,
         (FileServer.handle_download { st with
            clients := setKey st.clients sock u } sock req).2, true) := by
      simp only [FileServer.handle_client_step, hu, hc, Option.some.injEq,
        String.reduceEq, reduceIte]
    rw [h1, handle_download_anonymous { st with
      clients := setKey st.clients sock u } sock req hanon]
  · refine ⟨"Must join a room before deleting files", ?_⟩
    have h1 : FileServer.handle_client_step st sock (some req) ext =
        ((FileServer.handle_delete_file st sock req).1,
         [(FileServer.handle_delete_file st sock req).2], true) := by
      simp only [FileServer.handle_client_step, hu, hc, Option.some.injEq,
        String.reduceEq, reduceIte]
    rw [h1, handle_delete_file_anonymous st sock req hanon]
  · refine ⟨"Must join a room before deleting files", ?_⟩
    next u =>
    have h1 : FileServer.handle_client_step st sock (some req) ext =
        ((FileServer.handle_delete_file { st with
            clients := setKey st.clients sock u } sock req).1,
         [(FileServer.handle_delete_file { st with
            clients := setKey st.clients sock u } sock req).2], true) := by
      simp only [FileServer.handle_client_step, hu, hc, Option.some.injEq,
        String.reduceEq, reduceIte]
    rw [h1, handle_delete_file_anonymous { st with
      clients := setKey st.clients sock u } sock req hanon]

theorem in_room_commands_rejected_when_anonymous_witness :
    ({ command := some "upload", filename := some "a.txt" } :
        Request).command = some "upload" ∧
    lookupKey stNoRoom.client_rooms 0 = none ∧
    ∃ msg, FileServer.handle_client_step stNoRoom 0
        (some ({ command := some "upload", filename := some "a.txt" } :
          Request)) {} =
      ({ stNoRoom with clients :=
          (FileServer.handle_client_step stNoRoom 0
            (some ({ command := some "upload", filename := some "a.txt" } :
              Request)) {}).1.clients },
       [errResp msg], true) :=
  ⟨rfl, rfl,
   in_room_commands_rejected_when_anonymous stNoRoom 0 _ {} "upload" rfl
     (Or.inl rfl) rfl⟩

theorem FileServer.recvFileLoop_eq_aux (n : Nat) :
    ∀ (stream sched : List Nat) (fsz r : Int), stream.length ≤ n → r ≤ fsz →
      FileServer.recvFileLoop stream sched fsz r =
        if fsz ≤ r then r else min fsz (r + (stream.length : Int)) := by
  induction n with
  | zero =>
    intro stream sched fsz r hlen hr
    have hs : stream = [] := List.eq_nil_of_length_eq_zero (Nat.le_zero.mp hlen)
    subst hs
    rw [FileServer.recvFileLoop]
    by_cases hlt : r < fsz
    · rw [if_pos hlt, dif_pos (by simp [recv])]
      simp only [List.length_nil, Nat.cast_zero, add_zero]
      rw [if_neg (by omega)]
      omega
    · rw [if_neg hlt, if_pos (by omega)]
  | succ n ih =>
    intro stream sched fsz r hlen hr
    rw [FileServer.recvFileLoop]
    by_cases hlt : r < fsz
    · rw [if_pos hlt]
      cases stream with
      | nil =>
        rw [dif_pos (by simp [recv])]
        simp only [List.length_nil, Nat.cast_zero, add_zero]
        rw [if_neg (by omega)]
        omega
      | cons b bs =>
        have hcs1 : 1 ≤ (min (8192 : Int) (fsz - r)).toNat := by omega
        have hne : (recv ((min (8192 : Int) (fsz - r)).toNat) (b :: bs)
            ((sched.headD (b :: bs).length))).1 ≠ [] := by
          have hpos : 0 < ((recv ((min (8192 : Int) (fsz - r)).toNat)
              (b :: bs) ((sched.headD (b :: bs).length))).1).length := by
            simp only [recv, List.length_take, List.length_cons]
            omega
          exact List.length_pos.mp hpos
        rw [dif_neg hne]
        have hklen : (recv ((min (8192 : Int) (fsz - r)).toNat) (b :: bs)
            ((sched.headD (b :: bs).length))).2.length ≤ n := by
          simp only [recv, List.length_drop]
          have h1 : 1 ≤ min ((min (8192 : Int) (fsz - r)).toNat)
              (min (max (sched.headD (b :: bs).length) 1) (b :: bs).length) := by
            simp only [le_min_iff]
            refine ⟨hcs1, by omega, by simp⟩
          simp only [List.length_cons] at hlen ⊢
          omega
        have hr2 : r + ((recv ((min (8192 : Int) (fsz - r)).toNat) (b :: bs)
            ((sched.headD (b :: bs).length))).1.length : Int) ≤ fsz := by
          simp only [recv, List.length_take]
          have : (min (min ((min (8192 : Int) (fsz - r)).toNat)
              (min (max (sched.headD (b :: bs).length) 1) (b :: bs).length))
              (b :: bs).length : Int) ≤ (min (8192 : Int) (fsz - r)).toNat := by
            have := Nat.min_le_left (min ((min (8192 : Int) (fsz - r)).toNat)
              (min (max (sched.headD (b :: bs).length) 1) (b :: bs).length))
              (b :: bs).length
            omega
          omega
        rw [ih _ sched.tail fsz _ hklen hr2]
        simp only [recv, List.length_take, List.length_drop, List.length_cons]
        push_cast
        split_ifs <;> omega
    · rw [if_neg hlt, if_pos (by omega)]

/-- Total bytes the upload loop receives: everything available up to the
declared size (0 when the declared size is not positive). -/
theorem FileServer.recvFileLoop_total (stream sched : List Nat) (fsz : Int) :
    FileServer.recvFileLoop stream sched fsz 0 =
      if fsz ≤ 0 then 0 else min fsz (stream.length : Int) := by
  by_cases h0 : 0 ≤ fsz
  · rw [FileServer.recvFileLoop_eq_aux stream.length stream sched fsz 0 le_rfl h0]
    simp
  · rw [FileServer.recvFileLoop]
    rw [if_neg (by omega), if_pos (by omega)]


/-- C3: once an upload reaches the transfer phase (session in a live
room, nonempty filename, size within the 500 MB cap), the loop receives
everything the peer sends up to the declared size; if the received byte
count differs from the declared `file_size` (in particular when the peer
closes early), the partially written file is removed from the filesystem,
the second response is the "Incomplete file transfer" error, and no
FileEntry is added (the room map is unchanged); a FileEntry of the
declared size is registered exactly when the declared number of bytes
was received. -/
theorem upload_registers_only_on_exact_receipt (st : ServerState)
    (sock : Nat) (req : Request) (fileId now : String)
    (stream sched : List Nat) (rid : String) (room : Room)
    (hb : lookupKey st.client_rooms sock = some rid)
    (hr : lookupKey st.rooms rid = some room)
    (hf : req.filename.getD "" ≠ "")
    (hs : req.file_size.getD 0 ≤ 500 * 1024 * 1024) :
    (FileServer.recvFileLoop stream sched (req.file_size.getD 0) 0 =
      if req.file_size.getD 0 ≤ 0 then 0
      else min (req.file_size.getD 0) (stream.length : Int)) ∧
    (FileServer.recvFileLoop stream sched (req.file_size.getD 0) 0 ≠
        req.file_size.getD 0 →
      (room.room_dir ++ "/" ++ (fileId ++ pySplitextExt (req.filename.getD "")))
          ∉ (FileServer.handle_upload st sock req fileId now stream
              sched).1.fs.files ∧
      (FileServer.handle_upload st sock req fileId now stream sched).1.rooms =
        st.rooms ∧
      (FileServer.handle_upload st sock req fileId now stream sched).2 =
        [{ status := "ready", message := some "Ready to receive file" },
         errResp "Incomplete file transfer"]) ∧
    (FileServer.recvFileLoop stream sched (req.file_size.getD 0) 0 =
        req.file_size.getD 0 →
      ∃ r, lookupKey (FileServer.handle_upload st sock req fileId now stream
            sched).1.rooms rid = some r ∧
        ∃ e, lookupKey r.files fileId = some e ∧
          e.size = req.file_size.getD 0 ∧
          (FileServer.handle_upload st sock req fileId now stream sched).2 =
            [{ status := "ready", message := some "Ready to receive file" },
             { status := "success",
               message := some "File uploaded successfully",
               file_id := some fileId }]) := by
  have hs2 : ¬(req.file_size.getD 0 > 500 * 1024 * 1024) := by omega
  refine ⟨FileServer.recvFileLoop_total stream sched _, ?_, ?_⟩
  · intro hne
    have hstep : FileServer.handle_upload st sock req fileId now stream sched =
        ({ st with
            fs := FS.removeFile
              (FS.addFile st.fs (room.room_dir ++ "/" ++
                (fileId ++ pySplitextExt (req.filename.getD ""))))
              (room.room_dir ++ "/" ++
                (fileId ++ pySplitextExt (req.filename.getD ""))) },
         [{ status := "ready", message := some "Ready to receive file" },
          errResp "Incomplete file transfer"]) := by
      simp only [FileServer.handle_upload, hb, hr]
      rw [if_neg hf, if_neg hs2, if_pos hne]
    rw [hstep]
    exact ⟨not_mem_removeFile_files _ _, rfl, rfl⟩
  · intro heq
    have hstep : FileServer.handle_upload st sock req fileId now stream sched =
        ({ st with
            rooms := setKey st.rooms rid (room.add_file
              { id := fileId, name := req.filename.getD "",
                filename := fileId ++ pySplitextExt (req.filename.getD ""),
                size := req.file_size.getD 0,
                type := (mimeGuess (req.filename.getD "")).getD
                  "application/octet-stream",
                uploader := req.uploader.getD "Anonymous",
                description := req.description.getD "", date := now }),
            fs := st.fs.addFile (room.room_dir ++ "/" ++
              (fileId ++ pySplitextExt (req.filename.getD ""))) },
         [{ status := "ready", message := some "Ready to receive file" },
          { status := "success", message := some "File uploaded successfully",
            file_id := some fileId }]) := by
      simp only [FileServer.handle_upload, hb, hr]
      rw [if_neg hf, if_neg hs2, if_neg (by simpa using heq)]
    rw [hstep]
    refine ⟨_, lookupKey_setKey_self _ _ _, _, lookupKey_setKey_self _ _ _,
      rfl, rfl⟩


theorem upload_registers_only_on_exact_receipt_witness :
    lookupKey stInRoom.client_rooms 0 = some "r1" ∧
    lookupKey stInRoom.rooms "r1" = some roomAlpha ∧
    uploadReq.filename.getD "" ≠ "" ∧
    uploadReq.file_size.getD 0 ≤ 500 * 1024 * 1024 ∧
    ((FileServer.recvFileLoop [1, 2, 3] [] (uploadReq.file_size.getD 0) 0 =
      if uploadReq.file_size.getD 0 ≤ 0 then 0
      else min (uploadReq.file_size.getD 0) (([1, 2, 3] : List Nat).length : Int)) ∧
    (FileServer.recvFileLoop [1, 2, 3] [] (uploadReq.file_size.getD 0) 0 ≠
        uploadReq.file_size.getD 0 →
      (roomAlpha.room_dir ++ "/" ++
          ("f1" ++ pySplitextExt (uploadReq.filename.getD "")))
          ∉ (FileServer.handle_upload stInRoom 0 uploadReq "f1" "t2" [1, 2, 3]
              []).1.fs.files ∧
      (FileServer.handle_upload stInRoom 0 uploadReq "f1" "t2" [1, 2, 3]
          []).1.rooms = stInRoom.rooms ∧
      (FileServer.handle_upload stInRoom 0 uploadReq "f1" "t2" [1, 2, 3]
          []).2 =
        [{ status := "ready", message := some "Ready to receive file" },
         errResp "Incomplete file transfer"]) ∧
    (FileServer.recvFileLoop [1, 2, 3] [] (uploadReq.file_size.getD 0) 0 =
        uploadReq.file_size.getD 0 →
      ∃ r, lookupKey (FileServer.handle_upload stInRoom 0 uploadReq "f1" "t2"
            [1, 2, 3] []).1.rooms "r1" = some r ∧
        ∃ e, lookupKey r.files "f1" = some e ∧
          e.size = uploadReq.file_size.getD 0 ∧
          (FileServer.handle_upload stInRoom 0 uploadReq "f1" "t2" [1, 2, 3]
              []).2 =
            [{ status := "ready", message := some "Ready to receive file" },
             { status := "success",
               message := some "File uploaded successfully",
               file_id := some "f1" }])) :=
  ⟨rfl, rfl, by decide, by decide,
   upload_registers_only_on_exact_receipt stInRoom 0 uploadReq "f1" "t2"
     [1, 2, 3] [] "r1" roomAlpha rfl rfl (by decide) (by decide)⟩


theorem FileServer.recvPayload_eq_aux (n : Nat) :
    ∀ (stream sched : List Nat) (L : Nat) (data : List Nat),
      stream.length ≤ n → data.length ≤ L →
      FileServer.recvPayload stream sched L data =
        if L ≤ data.length + stream.length
        then some (data ++ stream.take (L - data.length)) else none := by
  induction n with
  | zero =>
    intro stream sched L data hlen hd
    have hs : stream = [] := List.eq_nil_of_length_eq_zero (Nat.le_zero.mp hlen)
    subst hs
    rw [FileServer.recvPayload]
    by_cases hlt : data.length < L
    · rw [if_pos hlt, dif_pos (by simp [recv])]
      rw [if_neg (by simp; omega)]
    · have hdl : data.length = L := by omega
      rw [if_neg hlt, if_pos (by omega)]
      simp [hdl]
  | succ n ih =>
    intro stream sched L data hlen hd
    rw [FileServer.recvPayload]
    by_cases hlt : data.length < L
    · rw [if_pos hlt]
      cases stream with
      | nil =>
        rw [dif_pos (by simp [recv])]
        rw [if_neg (by simp; omega)]
      | cons b bs =>
        have hne : (recv (min 8192 (L - data.length)) (b :: bs)
            (sched.headD (b :: bs).length)).1 ≠ [] := by
          have hpos : 0 < ((recv (min 8192 (L - data.length)) (b :: bs)
              (sched.headD (b :: bs).length)).1).length := by
            simp only [recv, List.length_take, List.length_cons]
            omega
          exact List.length_pos.mp hpos
        rw [dif_neg hne]
        have hklen : (recv (min 8192 (L - data.length)) (b :: bs)
            (sched.headD (b :: bs).length)).2.length ≤ n := by
          simp only [recv, List.length_drop, List.length_cons] at *
          omega
        have hd2 : (data ++ (recv (min 8192 (L - data.length)) (b :: bs)
            (sched.headD (b :: bs).length)).1).length ≤ L := by
          simp only [recv, List.length_append, List.length_take,
            List.length_cons]
          omega
        rw [ih _ sched.tail L _ hklen hd2]
        simp only [recv, List.length_append, List.length_take,
          List.length_drop, List.length_cons]
        by_cases hL : L ≤ data.length + (b :: bs).length
        · simp only [List.length_cons] at hL
          rw [if_pos (by omega), if_pos (by omega)]
          congr 1
          rw [List.append_assoc]
          congr 1
          rw [← List.take_add]
          congr 1
          omega
        · simp only [List.length_cons] at hL
          rw [if_neg (by omega), if_neg (by omega)]
    · have hdl : data.length = L := by omega
      rw [if_neg hlt, if_pos (by omega)]
      simp [hdl]


/-- C5 amended: `receive_request` issues a single `recv` of up to 4
bytes for the length header; zero bytes (peer closed) yields `none`, and
a short header read of 1 to 3 bytes — possible whenever the transport
delivers the prefix in smaller chunks — also yields `none` (a
`struct.unpack` error), rather than reading further header bytes.  When
all 4 header bytes arrive in that single `recv`, a declared big-endian
length above 10 MiB yields `none`, and otherwise the payload is read by
looping partial reads until exactly the declared byte count is received
— independent of the delivery schedule — with `none` when the peer
closes first.  All `none` outcomes make the caller drop the
connection. -/
theorem receive_request_characterization (stream sched : List Nat) :
    FileServer.receive_request stream sched =
      if stream = [] then none
      else if min 4 (min (max (sched.headD stream.length) 1) stream.length) < 4
        then none
      else if beDecode (stream.take 4) > 10 * 1024 * 1024 then none
      else if (stream.drop 4).length < beDecode (stream.take 4) then none
      else some ((stream.drop 4).take (beDecode (stream.take 4))) := by
  cases stream with
  | nil => simp [FileServer.receive_request, recv]
  | cons b bs =>
    have hlen1 : 1 ≤ (b :: bs).length := by simp
    simp only [FileServer.receive_request, recv]
    rw [if_neg (show ¬((b :: bs) = []) by simp)]
    by_cases hk4 : min 4 (min (max (sched.headD (b :: bs).length) 1)
        (b :: bs).length) < 4
    · rw [if_pos hk4]
      have hne : ¬(List.take (min 4 (min (max (sched.headD (b :: bs).length) 1)
          (b :: bs).length)) (b :: bs) = []) := by
        have hpos : 0 < (List.take (min 4 (min (max (sched.headD
            (b :: bs).length) 1) (b :: bs).length)) (b :: bs)).length := by
          simp only [List.length_take]
          omega
        exact List.length_pos.mp hpos
      rw [if_neg hne]
      rw [if_pos (show (List.take (min 4 (min (max (sched.headD
          (b :: bs).length) 1) (b :: bs).length)) (b :: bs)).length ≠ 4 by
        simp only [List.length_take]
        omega)]
    · rw [if_neg hk4]
      have hkeq : min 4 (min (max (sched.headD (b :: bs).length) 1)
          (b :: bs).length) = 4 := by omega
      rw [hkeq]
      have h4 : 4 ≤ (b :: bs).length := by omega
      have hne : ¬(List.take 4 (b :: bs) = []) := by
        have hpos : 0 < (List.take 4 (b :: bs)).length := by
          simp only [List.length_take]
          omega
        exact List.length_pos.mp hpos
      rw [if_neg hne]
      have hlen4 : (List.take 4 (b :: bs)).length = 4 := by
        simp only [List.length_take]
        omega
      rw [if_neg (show ¬((List.take 4 (b :: bs)).length ≠ 4) by
        rw [hlen4]; omega)]
      by_cases hbig : beDecode (List.take 4 (b :: bs)) > 10 * 1024 * 1024
      · rw [if_pos hbig, if_pos hbig]
      · rw [if_neg hbig, if_neg hbig]
        rw [FileServer.recvPayload_eq_aux (List.drop 4 (b :: bs)).length _
          sched.tail _ [] le_rfl (by simp)]
        simp only [List.length_nil, Nat.zero_add, List.nil_append,
          Nat.sub_zero]
        by_cases hL : (List.drop 4 (b :: bs)).length <
            beDecode (List.take 4 (b :: bs))
        · rw [if_neg (by omega), if_pos hL]
        · rw [if_pos (by omega), if_neg hL]

/-- C5 counterexample: the peer sends a complete frame (header
`[0,0,0,1]`, payload `[42]`), but the transport delivers only 2 bytes in
the first `recv`; the code's single `recv(4)` then fails the header
decode and `receive_request` returns `none` (dropping the connection),
while a read that reads exactly 4 header bytes and then loops — as the
claim describes — yields the payload. -/
theorem receive_request_short_header_read :
    FileServer.receive_request [0, 0, 0, 1, 42] [2] = none ∧
    FileServer.receive_request_asSpecified [0, 0, 0, 1, 42] = some [42] := by
  constructor
  · rfl
  · rfl
